import Mathlib

/-
Shallow embedding of RigelEngine's physics system
(src/engine/physics_system.cpp): the per-tick movement / collision
resolution core of a 2D tile-based platformer.

Modelling conventions:
* pixel coordinates are `Int` (the C++ uses plain machine ints);
* velocities are `ℚ` (the C++ uses `float`; the spec speaks of real
  numbers with exact decimal constants 0.56 / 1.0 / 2.0, which ℚ
  represents exactly);
* `static_cast<int16_t>` of a velocity is truncation toward zero,
  modelled by `truncToInt`;
* the external CollisionChecker is an abstract oracle: a record of four
  boolean queries over world-space boxes; theorems quantify over all
  oracles;
* the per-entity body of `PhysicsSystem::update` is `updateEntity`;
  entities are processed independently, so one entity suffices.
-/

namespace RigelPhysics

/-- base::Vector — integer 2D point. -/
structure Vec where
  x : Int
  y : Int
deriving DecidableEq, Repr

/-- base::Extents — width/height of a rectangle. -/
structure Size where
  width : Int
  height : Int
deriving DecidableEq, Repr

/-- base::Rect / components::BoundingBox — topLeft corner plus size. -/
structure BoundingBox where
  topLeft : Vec
  size : Size
deriving DecidableEq, Repr

/-- base::Rect operator+ with a vector: shifts the topLeft corner. -/
def addVec (b : BoundingBox) (v : Vec) : BoundingBox :=
  ⟨⟨b.topLeft.x + v.x, b.topLeft.y + v.y⟩, b.size⟩

/-- toWorldSpace (physics_system.cpp lines 37-44): translate an
entity-local bounding box into world space, the box's bottom row aligned
with the entity position's y. -/
def toWorldSpace (bbox : BoundingBox) (entityPosition : Vec) : BoundingBox :=
  addVec bbox ⟨entityPosition.x, entityPosition.y - (bbox.size.height - 1)⟩

/-- The external collision oracle (engine::CollisionChecker): four boolean
queries over a world-space box. -/
structure CollisionChecker where
  isTouchingRightWall : BoundingBox → Bool
  isTouchingLeftWall : BoundingBox → Bool
  isTouchingCeiling : BoundingBox → Bool
  isOnSolidGround : BoundingBox → Bool

/-- Truncation toward zero, the effect of C++ `static_cast<int16_t>` on a
(real-valued) velocity: drop the fractional part, keep the sign. -/
def truncToInt (q : ℚ) : Int :=
  if 0 ≤ q then ⌊q⌋ else ⌈q⌉

/-- Shift a box horizontally. -/
def shiftX (b : BoundingBox) (d : Int) : BoundingBox :=
  ⟨⟨b.topLeft.x + d, b.topLeft.y⟩, b.size⟩

/-- Shift a box vertically. -/
def shiftYBox (b : BoundingBox) (d : Int) : BoundingBox :=
  ⟨⟨b.topLeft.x, b.topLeft.y + d⟩, b.size⟩

/-- Raise a box by one pixel (`stepUpBbox.topLeft.y -= 1`). -/
def stepUp (b : BoundingBox) : BoundingBox :=
  shiftYBox b (-1)

/-- The leading-edge wall query of the horizontal resolver: right-wall
query when moving right, left-wall query when moving left
(physics_system.cpp lines 119-121). -/
def leadingWallCheck (cc : CollisionChecker) (movingRight : Bool)
    (b : BoundingBox) : Bool :=
  if movingRight then cc.isTouchingRightWall b else cc.isTouchingLeftWall b

/-- `const auto move = movingRight ? 1 : -1;` -/
def hMove (movingRight : Bool) : Int :=
  if movingRight then 1 else -1

/-- The loop body of PhysicsSystem::applyHorizontalMovement
(physics_system.cpp lines 116-150), fuel = remaining iterations
(`std::abs(movementX) - step`). State: the box advanced so far
(`movingBbox`) and the position accumulated so far (`newPosition`). -/
def hMoveLoop (cc : CollisionChecker) (movingRight allowStairStepping : Bool) :
    Nat → BoundingBox → Vec → Vec
  | 0, _, pos => pos
  | n + 1, movingBbox, pos =>
    let move := hMove movingRight
    if leadingWallCheck cc movingRight movingBbox then
      if allowStairStepping then
        let stepUpBbox := stepUp movingBbox
        if !(leadingWallCheck cc movingRight stepUpBbox) then
          if cc.isOnSolidGround (shiftX stepUpBbox move) then
            hMoveLoop cc movingRight allowStairStepping n
              (shiftX stepUpBbox move) ⟨pos.x + move, pos.y - 1⟩
          else pos
        else pos
      else pos
    else
      hMoveLoop cc movingRight allowStairStepping n
        (shiftX movingBbox move) ⟨pos.x + move, pos.y⟩

/-- PhysicsSystem::applyHorizontalMovement (physics_system.cpp lines
106-153). -/
def applyHorizontalMovement (cc : CollisionChecker) (bbox : BoundingBox)
    (currentPosition : Vec) (movementX : Int)
    (allowStairStepping : Bool) : Vec :=
  hMoveLoop cc (decide (movementX > 0)) allowStairStepping
    movementX.natAbs bbox currentPosition

/-- PhysicsSystem::applyGravity (physics_system.cpp lines 156-175). -/
def applyGravity (cc : CollisionChecker) (bbox : BoundingBox)
    (currentVelocity : ℚ) : ℚ :=
  if currentVelocity = 0 then
    if cc.isOnSolidGround bbox then currentVelocity else 1
  else
    if currentVelocity < 2 then currentVelocity + 0.56 else 2

/-- The contact query of the vertical resolver: ground query when moving
down, ceiling query when moving up (physics_system.cpp lines 190-192). -/
def vContactCheck (cc : CollisionChecker) (movingDown : Bool)
    (b : BoundingBox) : Bool :=
  if movingDown then cc.isOnSolidGround b else cc.isTouchingCeiling b

/-- `const auto move = movingDown ? 1 : -1;` -/
def vMove (movingDown : Bool) : Int :=
  if movingDown then 1 else -1

/-- The loop body of PhysicsSystem::applyVerticalMovement
(physics_system.cpp lines 189-206), fuel = remaining iterations. -/
def vMoveLoop (cc : CollisionChecker)
    (movingDown beginFallingOnHittingCeiling : Bool) (currentVelocity : ℚ) :
    Nat → BoundingBox → Vec → Vec × ℚ
  | 0, _, pos => (pos, currentVelocity)
  | n + 1, movingBbox, pos =>
    if vContactCheck cc movingDown movingBbox then
      if movingDown || !beginFallingOnHittingCeiling then (pos, 0)
      else (pos, 1)
    else
      let move := vMove movingDown
      vMoveLoop cc movingDown beginFallingOnHittingCeiling currentVelocity n
        (shiftYBox movingBbox move) ⟨pos.x, pos.y + move⟩

/-- PhysicsSystem::applyVerticalMovement (physics_system.cpp lines
178-209). -/
def applyVerticalMovement (cc : CollisionChecker) (bbox : BoundingBox)
    (currentPosition : Vec) (currentVelocity : ℚ) (movementY : Int)
    (beginFallingOnHittingCeiling : Bool) : Vec × ℚ :=
  vMoveLoop cc (decide (movementY > 0)) beginFallingOnHittingCeiling
    currentVelocity movementY.natAbs bbox currentPosition

/-- components::Physical's velocity (base::Point of float). -/
structure Velocity where
  x : ℚ
  y : ℚ
deriving DecidableEq

/-- components::Physical. -/
structure Physical where
  mVelocity : Velocity
  mGravityAffected : Bool
  mCanStepUpStairs : Bool
deriving DecidableEq

/-- One entity's components as seen by PhysicsSystem::update: Physical,
WorldPosition, BoundingBox (local collision rect), the Active marker and
the CollidedWithWorld marker (presence modelled as Bool). -/
structure EntityState where
  physical : Physical
  position : Vec
  collisionRect : BoundingBox
  active : Bool
  collidedWithWorld : Bool
deriving DecidableEq

/-- The per-entity body of PhysicsSystem::update (physics_system.cpp
lines 56-102). -/
def updateEntity (cc : CollisionChecker) (e : EntityState) : EntityState :=
  let originalPosition := e.position
  let movementX := truncToInt e.physical.mVelocity.x
  let position1 :=
    if movementX ≠ 0 then
      applyHorizontalMovement cc (toWorldSpace e.collisionRect e.position)
        e.position movementX e.physical.mCanStepUpStairs
    else e.position
  let bbox := toWorldSpace e.collisionRect position1
  let vy :=
    if e.physical.mGravityAffected then
      applyGravity cc bbox e.physical.mVelocity.y
    else e.physical.mVelocity.y
  let movementY := truncToInt vy
  let pv :=
    if movementY ≠ 0 then
      applyVerticalMovement cc bbox position1 vy movementY
        e.physical.mGravityAffected
    else (position1, vy)
  let collisionOccured :=
    decide (pv.1 ≠ ⟨originalPosition.x + movementX, originalPosition.y + movementY⟩)
  { e with
    position := pv.1,
    physical := { e.physical with mVelocity := ⟨e.physical.mVelocity.x, pv.2⟩ },
    collidedWithWorld := collisionOccured }

/-- Step count for horizontal movement: velocity.x truncated before any
movement (physics_system.cpp line 66). -/
def stepsX (e : EntityState) : Int :=
  truncToInt e.physical.mVelocity.x

/-- Position after the horizontal-movement phase of the tick
(physics_system.cpp lines 67-73). -/
def posAfterHorizontal (cc : CollisionChecker) (e : EntityState) : Vec :=
  if stepsX e ≠ 0 then
    applyHorizontalMovement cc (toWorldSpace e.collisionRect e.position)
      e.position (stepsX e) e.physical.mCanStepUpStairs
  else e.position

/-- The world box recomputed after horizontal movement
(physics_system.cpp line 77). -/
def bboxAfterHorizontal (cc : CollisionChecker) (e : EntityState) : BoundingBox :=
  toWorldSpace e.collisionRect (posAfterHorizontal cc e)

/-- velocity.y after the gravity phase (physics_system.cpp lines 85-87). -/
def velYAfterGravity (cc : CollisionChecker) (e : EntityState) : ℚ :=
  if e.physical.mGravityAffected then
    applyGravity cc (bboxAfterHorizontal cc e) e.physical.mVelocity.y
  else e.physical.mVelocity.y

/-- Step count for vertical movement: velocity.y truncated after gravity
was applied (physics_system.cpp line 89). -/
def stepsY (cc : CollisionChecker) (e : EntityState) : Int :=
  truncToInt (velYAfterGravity cc e)

/-! Concrete oracles and boxes used by witnesses and counterexamples. -/

/-- An oracle reporting no contact anywhere. -/
def ccAllClear : CollisionChecker :=
  ⟨fun _ => false, fun _ => false, fun _ => false, fun _ => false⟩

/-- An oracle whose right-wall query fires exactly for boxes whose left
edge is at x = 1; all other queries are clear. -/
def ccWallAtOne : CollisionChecker :=
  ⟨fun b => b.topLeft.x == 1, fun _ => false, fun _ => false, fun _ => false⟩

/-- A 1×1 box at the origin. -/
def box1 : BoundingBox := ⟨⟨0, 0⟩, ⟨1, 1⟩⟩

/-! Helper lemmas shared between claims. -/

/-- Every branch of the gravity model returns a value below 2.56. -/
theorem applyGravity_lt (cc : CollisionChecker) (bbox : BoundingBox) (v : ℚ) :
    applyGravity cc bbox v < 2.56 := by
  unfold applyGravity
  split
  · next h =>
    subst h
    split <;> norm_num
  · split
    · next h => linarith [h]
    · norm_num

/-- Truncation toward zero of a value below 2.56 is at most 2. -/
theorem truncToInt_le_two {q : ℚ} (h : q < 2.56) : truncToInt q ≤ 2 := by
  unfold truncToInt
  split
  · have h3 : ⌊q⌋ < (3 : ℤ) := by
      rw [Int.floor_lt]
      push_cast
      linarith
    omega
  · next hneg =>
    push_neg at hneg
    exact Int.ceil_le.mpr (by push_cast; linarith)

/-! Claim theorems. -/

/-- C1: the gravity model, as a function of (currentVelocityY, worldBox),
returns 0 when the velocity is exactly 0 and the oracle reports solid
ground; 1.0 when the velocity is exactly 0 and it does not; v + 0.56 when
the velocity v is nonzero and strictly below 2.0; and exactly 2.0 when it
is nonzero and at least 2.0 — for every input velocity and oracle. -/
theorem applyGravity_spec (cc : CollisionChecker) (bbox : BoundingBox) (v : ℚ) :
    applyGravity cc bbox v =
      if v = 0 then (if cc.isOnSolidGround bbox then 0 else 1)
      else if v < 2 then v + 0.56 else 2 := by
  unfold applyGravity
  rcases eq_or_ne v 0 with h | h
  · subst h
    simp
  · simp [h]

/-- C4 counterexample: at input velocity 1.9 (airborne oracle), the
gravity model returns 2.46, which exceeds the claimed bound of 2.0. -/
theorem applyGravity_exceeds_two :
    applyGravity ccAllClear box1 (19/10) = 123/50 ∧ (2 : ℚ) < 123/50 := by
  constructor
  · rw [applyGravity, if_neg (by norm_num), if_pos (by norm_num)]
    norm_num
  · norm_num

/-- C4 amended: the value returned by the gravity model is always
strictly below 2.56, and its truncation to the integer step count used by
the vertical resolver never exceeds 2 — so the model permits a maximum
downward speed of 2 whole pixels per tick, though the raw returned value
can exceed 2.0. -/
theorem applyGravity_bounded (cc : CollisionChecker) (bbox : BoundingBox) (v : ℚ) :
    applyGravity cc bbox v < 2.56 ∧ truncToInt (applyGravity cc bbox v) ≤ 2 :=
  ⟨applyGravity_lt cc bbox v, truncToInt_le_two (applyGravity_lt cc bbox v)⟩

/-- C8: one tick mutates, per processed entity, only Position, Velocity.y
and the CollidedWithWorld marker; Velocity.x, the local bounding box, the
gravityAffected and canStepUpStairs traits and the Active marker are
unchanged (the oracle is a read-only input of the embedding and has no
mutable state here). -/
theorem updateEntity_mutates_only (cc : CollisionChecker) (e : EntityState) :
    (updateEntity cc e).physical.mVelocity.x = e.physical.mVelocity.x ∧
    (updateEntity cc e).physical.mGravityAffected = e.physical.mGravityAffected ∧
    (updateEntity cc e).physical.mCanStepUpStairs = e.physical.mCanStepUpStairs ∧
    (updateEntity cc e).collisionRect = e.collisionRect ∧
    (updateEntity cc e).active = e.active :=
  ⟨rfl, rfl, rfl, rfl, rfl⟩

/-! Sanctioned single-pixel transitions of the resolvers: the amended
form of the blocked-position invariant. A horizontal step is either a
normal advance from a box whose leading-edge query is clear, or an
accepted stair-step; a vertical step is an advance from a box whose
ground/ceiling query is clear. -/

/-- One sanctioned transition of the horizontal resolver. -/
inductive HStep (cc : CollisionChecker) (movingRight allowStairStepping : Bool) :
    BoundingBox → Vec → BoundingBox → Vec → Prop
  | clear : ∀ {b : BoundingBox} {p : Vec},
      leadingWallCheck cc movingRight b = false →
      HStep cc movingRight allowStairStepping b p
        (shiftX b (hMove movingRight)) ⟨p.x + hMove movingRight, p.y⟩
  | stair : ∀ {b : BoundingBox} {p : Vec},
      leadingWallCheck cc movingRight b = true →
      allowStairStepping = true →
      leadingWallCheck cc movingRight (stepUp b) = false →
      cc.isOnSolidGround (shiftX (stepUp b) (hMove movingRight)) = true →
      HStep cc movingRight allowStairStepping b p
        (shiftX (stepUp b) (hMove movingRight)) ⟨p.x + hMove movingRight, p.y - 1⟩

/-- Chains of sanctioned horizontal transitions. -/
inductive HReach (cc : CollisionChecker) (movingRight allowStairStepping : Bool) :
    BoundingBox → Vec → BoundingBox → Vec → Prop
  | refl : ∀ (b : BoundingBox) (p : Vec),
      HReach cc movingRight allowStairStepping b p b p
  | tail : ∀ {b : BoundingBox} {p : Vec} {b1 : BoundingBox} {p1 : Vec}
      {b2 : BoundingBox} {p2 : Vec},
      HStep cc movingRight allowStairStepping b p b1 p1 →
      HReach cc movingRight allowStairStepping b1 p1 b2 p2 →
      HReach cc movingRight allowStairStepping b p b2 p2

/-- One sanctioned transition of the vertical resolver: an advance from a
box whose contact query (ground when moving down, ceiling when moving up)
is clear. -/
inductive VStep (cc : CollisionChecker) (movingDown : Bool) :
    BoundingBox → Vec → BoundingBox → Vec → Prop
  | clear : ∀ {b : BoundingBox} {p : Vec},
      vContactCheck cc movingDown b = false →
      VStep cc movingDown b p
        (shiftYBox b (vMove movingDown)) ⟨p.x, p.y + vMove movingDown⟩

/-- Chains of sanctioned vertical transitions. -/
inductive VReach (cc : CollisionChecker) (movingDown : Bool) :
    BoundingBox → Vec → BoundingBox → Vec → Prop
  | refl : ∀ (b : BoundingBox) (p : Vec), VReach cc movingDown b p b p
  | tail : ∀ {b : BoundingBox} {p : Vec} {b1 : BoundingBox} {p1 : Vec}
      {b2 : BoundingBox} {p2 : Vec},
      VStep cc movingDown b p b1 p1 →
      VReach cc movingDown b1 p1 b2 p2 →
      VReach cc movingDown b p b2 p2

/-- The horizontal loop only makes sanctioned transitions. -/
theorem hMoveLoop_reaches (cc : CollisionChecker) (mr allow : Bool) (n : Nat) :
    ∀ (b : BoundingBox) (p : Vec),
      ∃ b2, HReach cc mr allow b p b2 (hMoveLoop cc mr allow n b p) := by
  induction n with
  | zero =>
    intro b p
    exact ⟨b, HReach.refl b p⟩
  | succ n ih =>
    intro b p
    rw [hMoveLoop]
    rcases hw : leadingWallCheck cc mr b with _ | _
    · simp only [hw, Bool.false_eq_true, if_false]
      obtain ⟨b2, h2⟩ := ih (shiftX b (hMove mr)) ⟨p.x + hMove mr, p.y⟩
      exact ⟨b2, HReach.tail (HStep.clear hw) h2⟩
    · simp only [hw, if_true]
      rcases ha : allow with _ | _
      · simp only [Bool.false_eq_true, if_false]
        exact ⟨b, HReach.refl b p⟩
      · subst ha
        simp only [if_true]
        rcases hc : leadingWallCheck cc mr (stepUp b) with _ | _
        · simp only [hc, Bool.not_false, if_true]
          rcases hg : cc.isOnSolidGround (shiftX (stepUp b) (hMove mr)) with _ | _
          · simp only [hg, Bool.false_eq_true, if_false]
            exact ⟨b, HReach.refl b p⟩
          · simp only [hg, if_true]
            obtain ⟨b2, h2⟩ :=
              ih (shiftX (stepUp b) (hMove mr)) ⟨p.x + hMove mr, p.y - 1⟩
            exact ⟨b2, HReach.tail (HStep.stair hw rfl hc hg) h2⟩
        · simp only [hc, Bool.not_true, Bool.false_eq_true, if_false]
          exact ⟨b, HReach.refl b p⟩

/-- The vertical loop only makes sanctioned transitions. -/
theorem vMoveLoop_reaches (cc : CollisionChecker) (d flag : Bool) (v : ℚ) (n : Nat) :
    ∀ (b : BoundingBox) (p : Vec),
      ∃ b2, VReach cc d b p b2 (vMoveLoop cc d flag v n b p).1 := by
  induction n with
  | zero =>
    intro b p
    exact ⟨b, VReach.refl b p⟩
  | succ n ih =>
    intro b p
    rw [vMoveLoop]
    rcases hw : vContactCheck cc d b with _ | _
    · simp only [hw, Bool.false_eq_true, if_false]
      obtain ⟨b2, h2⟩ := ih (shiftYBox b (vMove d)) ⟨p.x, p.y + vMove d⟩
      exact ⟨b2, VReach.tail (VStep.clear hw) h2⟩
    · simp only [hw, if_true]
      rcases (d || !flag) with _ | _
      · exact ⟨b, VReach.refl b p⟩
      · exact ⟨b, VReach.refl b p⟩

/-- C3 counterexample: with one step of rightward movement, no
stair-stepping, and an oracle whose right-wall query fires exactly at
x = 1, the horizontal resolver moves the entity from (0,0) to (1,0) —
a position whose world box the oracle reports as blocked on the leading
edge, with no stair-step involved. The claimed invariant, that the
resolvers never return such a position, is false: the loop checks the
box before each advance but never checks the box it finally lands on. -/
theorem hmove_returns_reported_blocked :
    applyHorizontalMovement ccWallAtOne (toWorldSpace box1 ⟨0, 0⟩) ⟨0, 0⟩ 1 false
      = ⟨1, 0⟩ ∧
    ccWallAtOne.isTouchingRightWall (toWorldSpace box1 ⟨1, 0⟩) = true := by
  constructor
  · rfl
  · rfl

/-- C3 amended: every pixel of displacement either resolver commits is
sanctioned — the final position is reachable from the input position by a
chain of single-pixel transitions, each departing from a box the oracle
reports clear on the side being moved toward, except for accepted
stair-steps, which depart from a blocked box only under the stair-step
rule (permission flag set, raised box clear, raised-and-advanced box on
solid ground). The resolvers never advance out of a blocked box
otherwise; they may however stop on, or land on, a box reported blocked. -/
theorem resolvers_make_only_sanctioned_moves (cc : CollisionChecker)
    (bbox : BoundingBox) (pos : Vec) (movementX movementY : Int)
    (allow flag : Bool) (v : ℚ) :
    (∃ b2, HReach cc (decide (movementX > 0)) allow bbox pos b2
      (applyHorizontalMovement cc bbox pos movementX allow)) ∧
    (∃ b2, VReach cc (decide (movementY > 0)) bbox pos b2
      (applyVerticalMovement cc bbox pos v movementY flag).1) :=
  ⟨hMoveLoop_reaches cc (decide (movementX > 0)) allow movementX.natAbs bbox pos,
   vMoveLoop_reaches cc (decide (movementY > 0)) flag v movementY.natAbs bbox pos⟩

/-- Displacement accounting for the horizontal loop: the result is the
input position advanced by `iters` pixels in the movement direction and
raised by `stairs` pixels, where `stairs ≤ iters ≤ fuel` (every iteration
moves one pixel in x; only stair-step iterations also move up). -/
theorem hMoveLoop_displacement (cc : CollisionChecker) (mr allow : Bool) (n : Nat) :
    ∀ (b : BoundingBox) (px py : Int), ∃ iters stairs : Nat,
      stairs ≤ iters ∧ iters ≤ n ∧
      hMoveLoop cc mr allow n b ⟨px, py⟩ =
        ⟨px + hMove mr * iters, py - stairs⟩ := by
  induction n with
  | zero =>
    intro b px py
    refine ⟨0, 0, le_refl 0, le_refl 0, ?_⟩
    simp [hMoveLoop]
  | succ n ih =>
    intro b px py
    rw [hMoveLoop]
    dsimp only
    rcases hw : leadingWallCheck cc mr b with _ | _
    · simp only [hw, Bool.false_eq_true, if_false]
      obtain ⟨it, st, h1, h2, h3⟩ := ih (shiftX b (hMove mr)) (px + hMove mr) py
      refine ⟨it + 1, st, by omega, by omega, ?_⟩
      rw [h3]
      simp only [Vec.mk.injEq]
      constructor
      · push_cast
        ring
      · trivial
    · simp only [hw, if_true]
      rcases ha : allow with _ | _
      · simp only [Bool.false_eq_true, if_false]
        exact ⟨0, 0, le_refl 0, by omega, by simp⟩
      · subst ha
        simp only [if_true]
        rcases hc : leadingWallCheck cc mr (stepUp b) with _ | _
        · simp only [hc, Bool.not_false, if_true]
          rcases hg : cc.isOnSolidGround (shiftX (stepUp b) (hMove mr)) with _ | _
          · simp only [hg, Bool.false_eq_true, if_false]
            exact ⟨0, 0, le_refl 0, by omega, by simp⟩
          · simp only [hg, if_true]
            obtain ⟨it, st, h1, h2, h3⟩ :=
              ih (shiftX (stepUp b) (hMove mr)) (px + hMove mr) (py - 1)
            refine ⟨it + 1, st + 1, by omega, by omega, ?_⟩
            rw [h3]
            simp only [Vec.mk.injEq]
            constructor
            · push_cast
              ring
            · push_cast
              ring
        · simp only [hc, Bool.not_true, Bool.false_eq_true, if_false]
          exact ⟨0, 0, le_refl 0, by omega, by simp⟩

/-- C10: the horizontal resolver never moves the entity downward — the
returned y is at most the input y, decreasing by one pixel per accepted
stair-step — and the returned x differs from the input x by at most
|stepsX| pixels, in the direction of sign(stepsX) or not at all. -/
theorem applyHorizontalMovement_displacement (cc : CollisionChecker)
    (bbox : BoundingBox) (pos : Vec) (movementX : Int) (allow : Bool) :
    (applyHorizontalMovement cc bbox pos movementX allow).y ≤ pos.y ∧
    ∃ iters stairs : Nat, stairs ≤ iters ∧ iters ≤ movementX.natAbs ∧
      applyHorizontalMovement cc bbox pos movementX allow =
        ⟨pos.x + movementX.sign * iters, pos.y - stairs⟩ := by
  obtain ⟨it, st, h1, h2, h3⟩ :=
    hMoveLoop_displacement cc (decide (movementX > 0)) allow movementX.natAbs
      bbox pos.x pos.y
  have hpos : (⟨pos.x, pos.y⟩ : Vec) = pos := by
    cases pos
    rfl
  rw [hpos] at h3
  have hsign : hMove (decide (movementX > 0)) * (it : Int) = movementX.sign * it := by
    rcases lt_trichotomy movementX 0 with h | h | h
    · rw [Int.sign_eq_neg_one_iff_neg.mpr h]
      have : decide (movementX > 0) = false := by
        simp only [decide_eq_false_iff_not]
        omega
      rw [this]
      rfl
    · subst h
      have hit : it = 0 := by
        simpa using h2
      subst hit
      simp
    · rw [Int.sign_eq_one_iff_pos.mpr h]
      have : decide (movementX > 0) = true := by
        simp only [decide_eq_true_eq]
        omega
      rw [this]
      rfl
  rw [applyHorizontalMovement, h3]
  refine ⟨by simp, it, st, h1, h2, ?_⟩
  rw [hsign]

/-- C5: on leading-edge contact, a stair-step is accepted exactly when
the permission flag is true, the box raised one pixel reports no
leading-edge contact, and the raised box advanced one pixel in the
movement direction rests on solid ground; an accepted step changes
position by (±1, −1) and consumes exactly one of the remaining
iterations; in every other contact case the loop returns the position
accumulated so far (the last clear pixel), dropping the remaining
steps. -/
theorem hMoveLoop_contact_rule (cc : CollisionChecker) (mr allow : Bool)
    (b : BoundingBox) (p : Vec) (n : Nat)
    (ht : leadingWallCheck cc mr b = true) :
    hMoveLoop cc mr allow (n + 1) b p =
      if allow ∧ leadingWallCheck cc mr (stepUp b) = false
          ∧ cc.isOnSolidGround (shiftX (stepUp b) (hMove mr)) = true then
        hMoveLoop cc mr allow n (shiftX (stepUp b) (hMove mr))
          ⟨p.x + hMove mr, p.y - 1⟩
      else p := by
  rw [hMoveLoop]
  dsimp only
  simp only [ht, if_true]
  rcases ha : allow with _ | _
  · simp
  · rcases hc : leadingWallCheck cc mr (stepUp b) with _ | _
    · rcases hg : cc.isOnSolidGround (shiftX (stepUp b) (hMove mr)) with _ | _
      · simp [hc, hg]
      · simp [hc, hg]
    · simp [hc]

/-- An oracle whose right-wall query fires exactly for boxes whose top
edge is at y = 0, and whose ground query always fires. -/
def ccStair : CollisionChecker :=
  ⟨fun b => b.topLeft.y == 0, fun _ => false, fun _ => false, fun _ => true⟩

/-- C5 witness: with a wall fired at the unraised box, stair permission
granted, the raised box clear and the raised-and-advanced box grounded,
one iteration commits the step (+1, −1). -/
theorem hMoveLoop_contact_rule_witness :
    hMoveLoop ccStair true true 1 box1 ⟨0, 0⟩ = ⟨1, -1⟩ := by
  have h := hMoveLoop_contact_rule ccStair true true box1 ⟨0, 0⟩ 0 rfl
  rw [h]
  rfl

/-- Shifting a box vertically by 0 is the identity. -/
theorem shiftYBox_zero (b : BoundingBox) : shiftYBox b 0 = b := by
  cases b with
  | mk tl sz =>
    cases tl
    simp [shiftYBox]

/-- Vertical shifts compose additively. -/
theorem shiftYBox_add (b : BoundingBox) (a c : Int) :
    shiftYBox (shiftYBox b a) c = shiftYBox b (a + c) := by
  cases b with
  | mk tl sz =>
    cases tl
    simp [shiftYBox, add_assoc]

/-- The vertical loop passes over a clear run of j boxes, advancing the
position j pixels. -/
theorem vMoveLoop_clear_run (cc : CollisionChecker) (d flag : Bool) (v : ℚ) :
    ∀ (j m : Nat) (b : BoundingBox) (px py : Int),
      (∀ i : Nat, i < j → vContactCheck cc d (shiftYBox b (vMove d * i)) = false) →
      vMoveLoop cc d flag v (j + m) b ⟨px, py⟩ =
        vMoveLoop cc d flag v m (shiftYBox b (vMove d * j)) ⟨px, py + vMove d * j⟩ := by
  intro j
  induction j with
  | zero =>
    intro m b px py h
    simp [shiftYBox_zero]
  | succ j ihj =>
    intro m b px py h
    have hfuel : j + 1 + m = (j + m) + 1 := by omega
    rw [hfuel, vMoveLoop]
    dsimp only
    have h0 : vContactCheck cc d b = false := by
      have := h 0 (by omega)
      simpa [shiftYBox_zero] using this
    simp only [h0, Bool.false_eq_true, if_false]
    have hrest : ∀ i : Nat, i < j →
        vContactCheck cc d (shiftYBox (shiftYBox b (vMove d)) (vMove d * i)) = false := by
      intro i hi
      have h2 := h (i + 1) (by omega)
      push_cast at h2
      rw [shiftYBox_add]
      have e : vMove d + vMove d * (i : Int) = vMove d * ((i : Int) + 1) := by ring
      rw [e]
      exact h2
    rw [ihj m (shiftYBox b (vMove d)) px (py + vMove d) hrest]
    have e1 : shiftYBox (shiftYBox b (vMove d)) (vMove d * (j : Int)) =
        shiftYBox b (vMove d * ((j : Nat) + 1 : Nat)) := by
      rw [shiftYBox_add]
      congr 1
      push_cast
      ring
    rw [e1]
    congr 1
    simp only [Vec.mk.injEq, true_and]
    push_cast
    ring

/-- On contact, the vertical loop stops at once: it returns the position
accumulated so far and velocity 0 (moving down, or moving up without the
begin-falling flag) or 1 (moving up with the flag). -/
theorem vMoveLoop_contact_stop (cc : CollisionChecker) (d flag : Bool) (v : ℚ)
    (n : Nat) (b : BoundingBox) (p : Vec)
    (h : vContactCheck cc d b = true) :
    vMoveLoop cc d flag v (n + 1) b p = (p, if d || !flag then 0 else 1) := by
  rw [vMoveLoop]
  simp only [h, if_true]
  rcases hb : (d || !flag) with _ | _
  · simp [hb]
  · simp [hb]

/-- C6: a complete case analysis of the vertical resolver. If the first
contact occurs at the j-th single-pixel advance (all earlier boxes
clear), the resolver stops there and returns the position accumulated so
far with velocity 0 when moving down or moving up with the begin-falling
flag false, and velocity 1.0 when moving up with the flag true; if all
|stepsY| iterations pass without contact, it returns the fully advanced
position with the input velocity unchanged. -/
theorem applyVerticalMovement_cases (cc : CollisionChecker) (bbox : BoundingBox)
    (px py : Int) (v : ℚ) (movementY : Int) (flag : Bool) :
    (∀ j : Nat, j < movementY.natAbs →
      (∀ i : Nat, i < j → vContactCheck cc (decide (movementY > 0))
        (shiftYBox bbox (vMove (decide (movementY > 0)) * i)) = false) →
      vContactCheck cc (decide (movementY > 0))
        (shiftYBox bbox (vMove (decide (movementY > 0)) * j)) = true →
      applyVerticalMovement cc bbox ⟨px, py⟩ v movementY flag =
        (⟨px, py + vMove (decide (movementY > 0)) * j⟩,
          if decide (movementY > 0) || !flag then 0 else 1)) ∧
    ((∀ i : Nat, i < movementY.natAbs → vContactCheck cc (decide (movementY > 0))
        (shiftYBox bbox (vMove (decide (movementY > 0)) * i)) = false) →
      applyVerticalMovement cc bbox ⟨px, py⟩ v movementY flag =
        (⟨px, py + vMove (decide (movementY > 0)) * movementY.natAbs⟩, v)) := by
  constructor
  · intro j hj hclear hcontact
    rw [applyVerticalMovement]
    have hfuel : movementY.natAbs = j + (movementY.natAbs - j) := by omega
    rw [hfuel, vMoveLoop_clear_run cc (decide (movementY > 0)) flag v j
      (movementY.natAbs - j) bbox px py hclear]
    have hm : movementY.natAbs - j = (movementY.natAbs - j - 1) + 1 := by omega
    rw [hm, vMoveLoop_contact_stop cc (decide (movementY > 0)) flag v
      (movementY.natAbs - j - 1) _ _ hcontact]
  · intro hclear
    rw [applyVerticalMovement]
    have hfuel : movementY.natAbs = movementY.natAbs + 0 := by omega
    rw [hfuel, vMoveLoop_clear_run cc (decide (movementY > 0)) flag v
      movementY.natAbs 0 bbox px py hclear]
    rfl

/-- An oracle whose ground query fires exactly for boxes whose top edge
is at y = 2; all other queries are clear. -/
def ccGroundAtTwo : CollisionChecker :=
  ⟨fun _ => false, fun _ => false, fun _ => false, fun b => b.topLeft.y == 2⟩

/-- C6 witness: moving down 3 steps with ground two pixels below, the
resolver advances 2 pixels, stops on contact, and resets velocity to
0. -/
theorem applyVerticalMovement_cases_witness :
    applyVerticalMovement ccGroundAtTwo box1 ⟨0, 0⟩ 3 3 false = (⟨0, 2⟩, 0) := by
  have h := (applyVerticalMovement_cases ccGroundAtTwo box1 0 0 3 3 false).1 2
    (by norm_num) (by intro i hi; interval_cases i <;> rfl) rfl
  rw [h]
  rfl

/-- Truncation of zero is zero. -/
theorem truncToInt_zero : truncToInt 0 = 0 := by
  norm_num [truncToInt]

/-- updateEntity re-expressed through the named stage functions; equal by
unfolding the let-chain. -/
theorem updateEntity_eq (cc : CollisionChecker) (e : EntityState) :
    updateEntity cc e =
      (let pv :=
        if stepsY cc e ≠ 0 then
          applyVerticalMovement cc (bboxAfterHorizontal cc e)
            (posAfterHorizontal cc e) (velYAfterGravity cc e) (stepsY cc e)
            e.physical.mGravityAffected
        else (posAfterHorizontal cc e, velYAfterGravity cc e)
      { e with
        position := pv.1,
        physical := { e.physical with mVelocity := ⟨e.physical.mVelocity.x, pv.2⟩ },
        collidedWithWorld :=
          decide (pv.1 ≠ ⟨e.position.x + stepsX e, e.position.y + stepsY cc e⟩) }) :=
  rfl

/-- C2: after one tick, the CollidedWithWorld marker is present iff the
entity's actual displacement differs from the intended truncated
displacement (stepsX, stepsY) — stepsX being velocity.x truncated before
horizontal movement, stepsY velocity.y truncated after gravity; it is
removed otherwise. -/
theorem updateEntity_collision_marker (cc : CollisionChecker) (e : EntityState) :
    (updateEntity cc e).collidedWithWorld = true ↔
      (updateEntity cc e).position ≠
        ⟨e.position.x + stepsX e, e.position.y + stepsY cc e⟩ := by
  rw [updateEntity_eq]
  dsimp only
  rw [decide_eq_true_iff]

/-- C7: a resting entity — velocity exactly (0,0), world box reported on
solid ground — is a fixed point of the tick: position, velocity, local
box, traits and Active are unchanged and the CollidedWithWorld marker is
absent afterwards. -/
theorem updateEntity_resting_grounded (cc : CollisionChecker) (e : EntityState)
    (hv : e.physical.mVelocity = ⟨0, 0⟩)
    (hg : cc.isOnSolidGround (toWorldSpace e.collisionRect e.position) = true) :
    updateEntity cc e = { e with collidedWithWorld := false } := by
  have hvx : e.physical.mVelocity.x = 0 := by rw [hv]
  have hvy : e.physical.mVelocity.y = 0 := by rw [hv]
  have hsx : stepsX e = 0 := by rw [stepsX, hvx, truncToInt_zero]
  have hph : posAfterHorizontal cc e = e.position := by
    rw [posAfterHorizontal]
    simp [hsx]
  have hvg : velYAfterGravity cc e = 0 := by
    rw [velYAfterGravity, bboxAfterHorizontal, hph, hvy]
    split
    · rw [applyGravity]
      simp [hg]
    · rfl
  have hsy : stepsY cc e = 0 := by rw [stepsY, hvg, truncToInt_zero]
  rw [updateEntity_eq]
  dsimp only
  rw [hsy, hsx, if_neg (by simp), hph, hvg]
  have hvel : (⟨e.physical.mVelocity.x, 0⟩ : Velocity) = e.physical.mVelocity := by
    rw [hv]
  rw [hvel]
  simp

/-- An oracle whose ground query always fires; all other queries clear. -/
def ccAllGround : CollisionChecker :=
  ⟨fun _ => false, fun _ => false, fun _ => false, fun _ => true⟩

/-- A resting entity used in witnesses. -/
def entRest : EntityState := ⟨⟨⟨0, 0⟩, true, true⟩, ⟨5, 7⟩, box1, true, true⟩

/-- C7 witness: the resting-grounded theorem applied to a concrete
grounded entity at (5,7) with zero velocity. -/
theorem updateEntity_resting_grounded_witness :
    updateEntity ccAllGround entRest = { entRest with collidedWithWorld := false } :=
  updateEntity_resting_grounded ccAllGround entRest rfl rfl

/-- If the very first box already reports ceiling contact while moving
up, the vertical resolver stops at once: position unchanged, velocity 1
with the begin-falling flag, 0 without it. -/
theorem applyVerticalMovement_ceiling_first (cc : CollisionChecker)
    (b : BoundingBox) (p : Vec) (v : ℚ) (movementY : Int) (flag : Bool)
    (hneg : movementY < 0)
    (hceil : cc.isTouchingCeiling b = true) :
    applyVerticalMovement cc b p v movementY flag = (p, if flag then 1 else 0) := by
  rw [applyVerticalMovement]
  have hd : decide (movementY > 0) = false := by
    simp only [decide_eq_false_iff_not]
    omega
  rw [hd]
  have hn : movementY.natAbs = (movementY.natAbs - 1) + 1 := by omega
  rw [hn]
  rw [vMoveLoop_contact_stop cc false flag v _ b p (by simpa [vContactCheck] using hceil)]
  rcases flag with _ | _ <;> simp

/-- C9: the begin-falling-on-ceiling-hit flag passed to the vertical
resolver is the entity's gravityAffected trait: when the post-gravity
step count moves the entity up and the post-horizontal world box reports
ceiling contact, the tick leaves velocity.y at 1.0 for a gravity-affected
entity and 0.0 for a gravity-unaffected one. -/
theorem updateEntity_ceiling_hit (cc : CollisionChecker) (e : EntityState)
    (hup : stepsY cc e < 0)
    (hceil : cc.isTouchingCeiling (bboxAfterHorizontal cc e) = true) :
    (updateEntity cc e).physical.mVelocity.y =
      if e.physical.mGravityAffected then 1 else 0 := by
  have hne : stepsY cc e ≠ 0 := by omega
  rw [updateEntity_eq]
  dsimp only
  rw [if_pos hne]
  rw [applyVerticalMovement_ceiling_first cc (bboxAfterHorizontal cc e)
    (posAfterHorizontal cc e) (velYAfterGravity cc e) (stepsY cc e)
    e.physical.mGravityAffected hup hceil]

/-- An oracle whose ceiling query always fires; all other queries
clear. -/
def ccAllCeiling : CollisionChecker :=
  ⟨fun _ => false, fun _ => false, fun _ => true, fun _ => false⟩

/-- A gravity-affected entity jumping upward at velocity y = −2, used in
witnesses. -/
def entJump : EntityState := ⟨⟨⟨0, -2⟩, true, false⟩, ⟨0, 0⟩, box1, true, false⟩

/-- C9 witness: a gravity-affected entity moving up into an
always-ceiling oracle ends the tick with velocity.y = 1. -/
theorem updateEntity_ceiling_hit_witness :
    (updateEntity ccAllCeiling entJump).physical.mVelocity.y = 1 := by
  have hsy : stepsY ccAllCeiling entJump = -1 := by
    rw [stepsY, velYAfterGravity]
    have hga : entJump.physical.mGravityAffected = true := rfl
    rw [if_pos hga]
    have hgr : applyGravity ccAllCeiling
        (bboxAfterHorizontal ccAllCeiling entJump) entJump.physical.mVelocity.y
        = -36/25 := by
      rw [applyGravity]
      norm_num [entJump]
    rw [hgr, truncToInt]
    norm_num [Int.ceil_neg]
  have h := updateEntity_ceiling_hit ccAllCeiling entJump (by omega) rfl
  rw [h]
  rfl

end RigelPhysics
